import Mathlib

/-!
# Verification of the Aegis STTF detection-and-mitigation engine

A shallow embedding of the Aegis core (Scroll-To-Text-Fragment parser,
telemetry bus, detection facade) and of the React mitigation controller,
together with theorems settling the specification's claims.

The embedding follows the TypeScript sources:
* `packages/core/src/utils.ts` — `parseSTTFFromURL`
* `packages/core/src/telemetry.ts` — `registerTelemetrySink`, `emitEvent`
* `packages/core/src/leaks.ts` — `extractSTTFDirectives`
* `packages/react/src/protection/sttf.ts` — `useSTTFProtection`
* `packages/react/src/useAegis.ts` — `MODE_PRESETS`, `useAegis`

The parser calls three web-platform primitives (`new URL(url, "http://localhost")`,
`URLSearchParams`, `decodeURIComponent`); these are modelled below from the
WHATWG URL Standard and ECMA-262, at the fidelity the claims need
(fragment extraction, form-urlencoded parsing with percent-decoding, strict
percent-decoding with URIError).  All definitions are structurally recursive,
so every concrete claim instance evaluates inside the kernel.
-/

namespace Aegis

/-! ## Generic character/byte helpers -/

/-- Value of an ASCII hex digit, `none` otherwise. -/
def hexVal (c : Char) : Option Nat :=
  if '0' ≤ c ∧ c ≤ '9' then some (c.toNat - '0'.toNat)
  else if 'a' ≤ c ∧ c ≤ 'f' then some (c.toNat - 'a'.toNat + 10)
  else if 'A' ≤ c ∧ c ≤ 'F' then some (c.toNat - 'A'.toNat + 10)
  else none

/-- ASCII lowercase of one character (models the ASCII fragment of
`String.prototype.toLowerCase`). -/
def asciiLowerChar (c : Char) : Char :=
  if 'A' ≤ c ∧ c ≤ 'Z' then Char.ofNat (c.toNat + 32) else c

/-- ASCII lowercase of a character list. -/
def asciiLower (l : List Char) : List Char :=
  l.map asciiLowerChar

/-- `startsWithList p l` is true when `p` is an initial segment of `l`
(models `String.prototype.startsWith` for the ASCII literals used by the code). -/
def startsWithList : List Char → List Char → Bool
  | [], _ => true
  | _ :: _, [] => false
  | p :: ps, c :: cs => p = c && startsWithList ps cs

/-- First index of `pat` inside `l` starting at accumulator `i`, `-1` if absent
(models `String.prototype.indexOf`). -/
def indexOfListAux (pat : List Char) : List Char → Nat → Int
  | l, i =>
    if startsWithList pat l then (i : Int)
    else match l with
      | [] => -1
      | _ :: t => indexOfListAux pat t (i + 1)

/-- `String.prototype.indexOf` model: first occurrence index or `-1`. -/
def jsIndexOf (s pat : String) : Int :=
  indexOfListAux pat.data s.data 0

/-- Split a character list at every occurrence of `c`
(models splitting a (byte) sequence on a separator, WHATWG infra). -/
def splitOnChar (c : Char) : List Char → List (List Char)
  | [] => [[]]
  | x :: t =>
    let r := splitOnChar c t
    if x = c then [] :: r
    else
      match r with
      | [] => [[x]]
      | h :: t2 => (x :: h) :: t2

/-- Split at the first occurrence of `c`: part before, and part after if any. -/
def splitFirstChar (c : Char) : List Char → List Char × Option (List Char)
  | [] => ([], none)
  | x :: t =>
    if x = c then ([], some t)
    else
      let r := splitFirstChar c t
      (x :: r.1, r.2)

/-- Suffix after the last occurrence of `c`, if `c` occurs. -/
def afterLastCharAux (c : Char) : List Char → Option (List Char)
  | [] => none
  | x :: t =>
    match afterLastCharAux c t with
    | some r => some r
    | none => if x = c then some t else none

/-- Suffix after the last occurrence of `c`; the full list if `c` is absent. -/
def afterLastChar (c : Char) (l : List Char) : List Char :=
  (afterLastCharAux c l).getD l

/-! ## UTF-8 (WHATWG encoding standard) -/

/-- UTF-8 encoding of one scalar value, as bytes (Nat < 256). -/
def utf8EncodeChar (c : Char) : List Nat :=
  let n := c.toNat
  if n ≤ 0x7F then [n]
  else if n ≤ 0x7FF then [0xC0 + n / 64, 0x80 + n % 64]
  else if n ≤ 0xFFFF then [0xE0 + n / 4096, 0x80 + (n / 64) % 64, 0x80 + n % 64]
  else [0xF0 + n / 262144, 0x80 + (n / 4096) % 64, 0x80 + (n / 64) % 64, 0x80 + n % 64]

/-- UTF-8 encoding of a string, as bytes. -/
def utf8Encode (s : String) : List Nat :=
  (s.data.map utf8EncodeChar).flatten

/-- Classify a byte in the start state of the WHATWG UTF-8 decoder:
either a finished output character (ASCII, or U+FFFD for an invalid lead byte),
or `(pending, acc, lo, hi)`: number of continuation bytes still needed,
accumulated value, and the admissible range for the next byte. -/
def utf8StateOfLead (b : Nat) : (Nat × Nat × Nat × Nat) ⊕ Char :=
  if b ≤ 0x7F then Sum.inr (Char.ofNat b)
  else if 0xC2 ≤ b ∧ b ≤ 0xDF then Sum.inl (1, b - 0xC0, 0x80, 0xBF)
  else if b = 0xE0 then Sum.inl (2, 0, 0xA0, 0xBF)
  else if 0xE1 ≤ b ∧ b ≤ 0xEC then Sum.inl (2, b - 0xE0, 0x80, 0xBF)
  else if b = 0xED then Sum.inl (2, 0xD, 0x80, 0x9F)
  else if 0xEE ≤ b ∧ b ≤ 0xEF then Sum.inl (2, b - 0xE0, 0x80, 0xBF)
  else if b = 0xF0 then Sum.inl (3, 0, 0x90, 0xBF)
  else if 0xF1 ≤ b ∧ b ≤ 0xF3 then Sum.inl (3, b - 0xF0, 0x80, 0xBF)
  else if b = 0xF4 then Sum.inl (3, 4, 0x80, 0x8F)
  else Sum.inr '�'

/-- WHATWG UTF-8 decoder with U+FFFD replacement on error.  State:
`need` continuation bytes outstanding, accumulator `acc`, admissible range
`lo`–`hi` for the next continuation byte.  An out-of-range byte emits U+FFFD
and is reconsumed in the start state, per the standard. -/
def utf8DecodeAux : Nat → Nat → Nat → Nat → List Nat → List Char
  | 0, _, _, _, [] => []
  | 0, _, _, _, b :: t =>
    (match utf8StateOfLead b with
     | Sum.inr c => c :: utf8DecodeAux 0 0 0 0 t
     | Sum.inl (n, a, lo, hi) => utf8DecodeAux n a lo hi t)
  | _ + 1, _, _, _, [] => ['�']
  | n + 1, acc, lo, hi, b :: t =>
    if lo ≤ b ∧ b ≤ hi then
      let acc2 := acc * 64 + (b - 0x80)
      if n = 0 then Char.ofNat acc2 :: utf8DecodeAux 0 0 0 0 t
      else utf8DecodeAux n acc2 0x80 0xBF t
    else
      '�' ::
      (match utf8StateOfLead b with
       | Sum.inr c => c :: utf8DecodeAux 0 0 0 0 t
       | Sum.inl (n2, a2, lo2, hi2) => utf8DecodeAux n2 a2 lo2 hi2 t)

/-- UTF-8 decode with replacement (WHATWG "UTF-8 decode without BOM"). -/
def utf8DecodeReplace (bs : List Nat) : String :=
  String.mk (utf8DecodeAux 0 0 0 0 bs)

/-! ## Percent decoding -/

/-- Whether a byte is an ASCII hex digit. -/
def isHexByte (b : Nat) : Bool :=
  (0x30 ≤ b ∧ b ≤ 0x39) || (0x41 ≤ b ∧ b ≤ 0x46) || (0x61 ≤ b ∧ b ≤ 0x66)

/-- Numeric value of an ASCII hex-digit byte. -/
def hexByteVal (b : Nat) : Nat :=
  if b ≤ 0x39 then b - 0x30
  else if b ≤ 0x46 then b - 0x41 + 10
  else b - 0x61 + 10

/-- WHATWG percent-decode on bytes: `%XY` with two hex digits becomes one
byte, anything else is copied verbatim (never fails). -/
def percentDecodeBytes : List Nat → List Nat
  | [] => []
  | 0x25 :: a :: b :: t =>
    if isHexByte a ∧ isHexByte b then
      (hexByteVal a * 16 + hexByteVal b) :: percentDecodeBytes t
    else 0x25 :: percentDecodeBytes (a :: b :: t)
  | x :: t => x :: percentDecodeBytes t

/-! ## URLSearchParams (WHATWG application/x-www-form-urlencoded parser) -/

/-- One name or value of a form-urlencoded pair: replace `+` (0x2B) with
space, percent-decode the bytes, UTF-8 decode with replacement. -/
def formDecodeStr (s : String) : String :=
  utf8DecodeReplace
    (percentDecodeBytes ((utf8Encode s).map (fun b => if b = 0x2B then 0x20 else b)))

/-- Decoded name/value pairs of `new URLSearchParams(init)`: strip one
leading `?`, split on `&`, skip empty pieces, split each piece at its first
`=` (missing `=` means empty value), and form-decode name and value. -/
def uspPairs (init : String) : List (String × String) :=
  let s := if startsWithList ['?'] init.data then init.data.drop 1 else init.data
  (splitOnChar '&' s).filterMap (fun piece =>
    match piece with
    | [] => none
    | _ =>
      let r := splitFirstChar '=' piece
      some (formDecodeStr (String.mk r.1), formDecodeStr (String.mk (r.2.getD []))))

/-- `URLSearchParams.prototype.getAll`: values of every pair whose decoded
name equals `key`, in occurrence order. -/
def uspGetAll (init key : String) : List String :=
  (uspPairs init).filterMap (fun p => if p.1 = key then some p.2 else none)

/-! ## `new URL(url, "http://localhost")` — fragment extraction and failure -/

/-- Remove every ASCII tab or newline (basic URL parser, preprocessing). -/
def removeTabNewline (l : List Char) : List Char :=
  l.filter (fun c => c ≠ '\t' ∧ c ≠ '\n' ∧ c ≠ '\r')

/-- Whether a character is a C0 control or space (code point ≤ U+0020). -/
def isC0OrSpace (c : Char) : Bool :=
  c.toNat ≤ 0x20

/-- Strip leading and trailing C0 controls and spaces (basic URL parser,
preprocessing). -/
def trimC0Space (l : List Char) : List Char :=
  ((l.dropWhile isC0OrSpace).reverse.dropWhile isC0OrSpace).reverse

/-- ASCII alpha test. -/
def isAsciiAlpha (c : Char) : Bool :=
  ('a' ≤ c ∧ c ≤ 'z') || ('A' ≤ c ∧ c ≤ 'Z')

/-- ASCII digit test. -/
def isAsciiDigit (c : Char) : Bool :=
  '0' ≤ c ∧ c ≤ '9'

/-- Characters allowed after the first one in a URL scheme. -/
def isSchemeChar (c : Char) : Bool :=
  isAsciiAlpha c || isAsciiDigit c || c = '+' || c = '-' || c = '.'

/-- Scan `scheme ':'`: the scheme body and the remainder after the colon. -/
def schemeSplitAux : List Char → Option (List Char × List Char)
  | [] => none
  | c :: t =>
    if c = ':' then some ([], t)
    else if isSchemeChar c then
      match schemeSplitAux t with
      | some (a, b) => some (c :: a, b)
      | none => none
    else none

/-- Split off a URL scheme (first char ASCII alpha, then scheme chars, then
`:`), returning the lowercased scheme and the remainder. -/
def schemeSplit (l : List Char) : Option (List Char × List Char) :=
  match l with
  | [] => none
  | c :: _ =>
    if isAsciiAlpha c then
      match schemeSplitAux l with
      | some (a, b) => some (asciiLower a, b)
      | none => none
    else none

/-- The WHATWG special schemes. -/
def specialSchemes : List (List Char) :=
  [['h', 't', 't', 'p'], ['h', 't', 't', 'p', 's'], ['w', 's'], ['w', 's', 's'],
   ['f', 't', 'p'], ['f', 'i', 'l', 'e']]

/-- Forbidden host code points (WHATWG; tab/newline were already removed). -/
def forbiddenHostChar (c : Char) : Bool :=
  c = Char.ofNat 0 || c = ' ' || c = '#' || c = '/' || c = ':' || c = '<' ||
  c = '>' || c = '?' || c = '@' || c = '[' || c = '\\' || c = ']' ||
  c = '^' || c = '|'

/-- Whether a slash-like character terminates / leads the authority of a
special URL (`\` is treated as `/` for special schemes). -/
def isSlashLike (c : Char) : Bool :=
  c = '/' || c = '\\'

/-- The authority substring: after leading slash-like characters, up to the
first `/`, `\`, or `?`. -/
def authorityOf (l : List Char) : List Char :=
  (l.dropWhile isSlashLike).takeWhile (fun c => ¬ (isSlashLike c || c = '?'))

/-- Port validity: empty, or all digits with value ≤ 65535. -/
def portOk (l : List Char) : Bool :=
  l = [] || (l.all isAsciiDigit && l.foldl (fun a c => a * 10 + (c.toNat - '0'.toNat)) 0 ≤ 65535)

/-- Host parsing failure for a special-scheme authority (models host parsing
for domains; IDNA mapping and percent-decoding of hosts are not modelled,
and the contents of an IPv6 literal are not validated beyond its brackets). -/
def hostFails (auth : List Char) : Bool :=
  let hostPort := afterLastChar '@' auth
  match hostPort with
  | [] => true
  | '[' :: rest =>
    (match splitFirstChar ']' rest with
     | (_, none) => true
     | (_, some after) =>
       match after with
       | [] => false
       | ':' :: p => ¬ portOk p
       | _ => true)
  | _ =>
    let r := splitFirstChar ':' hostPort
    r.1 = [] || r.1.any forbiddenHostChar || ¬ portOk (r.2.getD [])

/-- Whether `new URL(pre ++ "#" ++ fragment, "http://localhost")` throws,
as a function of the pre-fragment part `pre`.  Against the valid base, a
failure can only come from an unparseable authority: an explicit special
scheme other than the base's with an invalid host, or a scheme-relative
(`//`) authority with an invalid host. -/
def urlResolveFails (pre : List Char) : Bool :=
  match schemeSplit pre with
  | some (scheme, rest) =>
    if specialSchemes.contains scheme then
      if scheme = ['f', 'i', 'l', 'e'] then false
      else if scheme = ['h', 't', 't', 'p'] ∧ ¬ startsWithList ['/', '/'] rest then
        -- same scheme as the base and no authority slashes: parsed relative
        -- to the base ("special relative state"), whose host is valid
        false
      else hostFails (authorityOf rest)
    else false
  | none =>
    if startsWithList ['/', '/'] pre || startsWithList ['\\', '\\'] pre ||
       startsWithList ['/', '\\'] pre || startsWithList ['\\', '/'] pre then
      hostFails (authorityOf pre)
    else false

/-- The fragment percent-encode set (WHATWG): C0 controls, DEL and above,
space, `"`, `<`, `>`, and backquote (U+0060). -/
def inFragmentEncodeSet (c : Char) : Bool :=
  c.toNat ≤ 0x1F || 0x7F ≤ c.toNat || c = ' ' || c = '"' || c = '<' ||
  c.toNat = 0x60

/-- Uppercase hex digit of a value < 16. -/
def hexDigitUpper (n : Nat) : Char :=
  if n < 10 then Char.ofNat ('0'.toNat + n) else Char.ofNat ('A'.toNat + n - 10)

/-- Percent-encode one byte as `%XY`. -/
def percentEncodeByte (b : Nat) : List Char :=
  ['%', hexDigitUpper (b / 16), hexDigitUpper (b % 16)]

/-- Percent-encode a fragment with the fragment percent-encode set. -/
def fragmentPercentEncode (l : List Char) : List Char :=
  (l.map (fun c =>
    if inFragmentEncodeSet c then (utf8EncodeChar c).map percentEncodeByte |>.flatten
    else [c])).flatten

/-- Model of `new URL(url, "http://localhost").hash`: the input is trimmed
of C0 controls/spaces at both ends and of tabs/newlines everywhere, split at
its first `#`; parsing of the pre-fragment part either throws (`Except.error`)
or the getter returns `""` for an absent or empty fragment and otherwise `#`
followed by the percent-encoded fragment. -/
def jsNewURLHash (url : String) : Except String String :=
  let input := removeTabNewline (trimC0Space url.data)
  let r := splitFirstChar '#' input
  if urlResolveFails r.1 then Except.error "TypeError: Invalid URL"
  else
    match r.2 with
    | none => Except.ok ""
    | some frag =>
      let ef := fragmentPercentEncode frag
      Except.ok (if ef = [] then "" else String.mk ('#' :: ef))

/-! ## `decodeURIComponent` (ECMA-262 Decode with an empty reserved set) -/

/-- Continuation-byte test for the strict decoder. -/
def isCont (b : Nat) : Bool :=
  0x80 ≤ b ∧ b ≤ 0xBF

/-- Strict percent-decoding scanner for `decodeURIComponent`: ordinary
characters are copied; a `%` must begin a `%XY` escape; an escaped byte
≥ 0x80 must begin a complete, minimally-encoded UTF-8 sequence whose
continuation bytes are also given as escapes.  `none` models `URIError`. -/
def decodeURIAux : List Char → Option (List Char)
  | [] => some []
  | '%' :: h1 :: h2 :: t =>
    (match hexVal h1, hexVal h2 with
     | some a, some b =>
       let B := 16 * a + b
       if B ≤ 0x7F then (decodeURIAux t).map (fun r => Char.ofNat B :: r)
       else if 0xC2 ≤ B ∧ B ≤ 0xDF then
         match t with
         | '%' :: h3 :: h4 :: t2 =>
           (match hexVal h3, hexVal h4 with
            | some a2, some b2 =>
              let B2 := 16 * a2 + b2
              if isCont B2 then
                (decodeURIAux t2).map (fun r => Char.ofNat ((B - 0xC0) * 64 + (B2 - 0x80)) :: r)
              else none
            | _, _ => none)
         | _ => none
       else if 0xE0 ≤ B ∧ B ≤ 0xEF then
         match t with
         | '%' :: h3 :: h4 :: '%' :: h5 :: h6 :: t2 =>
           (match hexVal h3, hexVal h4, hexVal h5, hexVal h6 with
            | some a2, some b2, some a3, some b3 =>
              let B2 := 16 * a2 + b2
              let B3 := 16 * a3 + b3
              let lo2 := if B = 0xE0 then 0xA0 else 0x80
              let hi2 := if B = 0xED then 0x9F else 0xBF
              if (lo2 ≤ B2 ∧ B2 ≤ hi2) ∧ isCont B3 then
                (decodeURIAux t2).map
                  (fun r => Char.ofNat (((B - 0xE0) * 64 + (B2 - 0x80)) * 64 + (B3 - 0x80)) :: r)
              else none
            | _, _, _, _ => none)
         | _ => none
       else if 0xF0 ≤ B ∧ B ≤ 0xF4 then
         match t with
         | '%' :: h3 :: h4 :: '%' :: h5 :: h6 :: '%' :: h7 :: h8 :: t2 =>
           (match hexVal h3, hexVal h4, hexVal h5, hexVal h6, hexVal h7, hexVal h8 with
            | some a2, some b2, some a3, some b3, some a4, some b4 =>
              let B2 := 16 * a2 + b2
              let B3 := 16 * a3 + b3
              let B4 := 16 * a4 + b4
              let lo2 := if B = 0xF0 then 0x90 else 0x80
              let hi2 := if B = 0xF4 then 0x8F else 0xBF
              if (lo2 ≤ B2 ∧ B2 ≤ hi2) ∧ isCont B3 ∧ isCont B4 then
                (decodeURIAux t2).map (fun r =>
                  Char.ofNat ((((B - 0xF0) * 64 + (B2 - 0x80)) * 64 + (B3 - 0x80)) * 64 + (B4 - 0x80)) :: r)
              else none
            | _, _, _, _, _, _ => none)
         | _ => none
       else none
     | _, _ => none)
  | '%' :: _ => none
  | c :: t => (decodeURIAux t).map (fun r => c :: r)

/-- `decodeURIComponent`: `Except.error` models a thrown `URIError`. -/
def decodeURIComponentE (s : String) : Except String String :=
  match decodeURIAux s.data with
  | some r => Except.ok (String.mk r)
  | none => Except.error "URIError: URI malformed"

/-! ## The directive parser (`packages/core/src/utils.ts`, `parseSTTFFromURL`) -/

/-- Body of `parseSTTFFromURL`'s `try` block, before the surrounding
`catch`: `Except.error` is an escaping exception (only the `URL` constructor
can throw here; the per-value `decodeURIComponent` failure is caught locally
and keeps the value). -/
def parseSTTFBody (url : String) : Except String (Option (List String)) :=
  match jsNewURLHash url with
  | Except.error e => Except.error e
  | Except.ok hash =>
    if ¬ startsWithList "#:~:".data hash.data then Except.ok none
    else
      let directivePart : String := String.mk (hash.data.drop 4)
      let texts := uspGetAll directivePart "text"
      if texts.length = 0 then Except.ok none
      else
        Except.ok (some (texts.map (fun value =>
          match decodeURIComponentE value with
          | Except.ok d => d
          | Except.error _ => value)))

/-- `parseSTTFFromURL` (utils.ts lines 43–74): the `try`/`catch` turns any
escaping exception into `null` (here `none`). -/
def parseSTTFFromURL (url : String) : Option (List String) :=
  match parseSTTFBody url with
  | Except.ok r => r
  | Except.error _ => none

/-! ## Telemetry bus (`packages/core/src/telemetry.ts`) -/

/-- The `XSLeakEvent` record of `types.ts`: `kind` is the fixed tag
`"XS_LEAK"`, `level` one of `"INFO"`, `"WARN"`, `"ERROR"`, `vector` the
technique tag, optional `path` and `detail`, and an epoch-milliseconds
timestamp. -/
structure XSLeakEvent where
  kind : String
  level : String
  vector : String
  path : Option String
  detail : Option String
  timestamp : Nat
deriving DecidableEq, Repr

/-- A telemetry sink (`TelemetrySink` in `types.ts`): a procedure taking an
event; `Except.error` models the sink throwing. -/
def Sink : Type :=
  XSLeakEvent → Except String Unit

/-- Observable outcome of one `emitEvent` call: the sink slot after the call,
the sink invocations made (each with the sink's own outcome), and what
`emitEvent` itself returns to its caller (`Except.error` would be an escaping
exception). -/
structure EmitResult where
  sinkAfter : Option Sink
  calls : List (XSLeakEvent × Except String Unit)
  result : Except String Unit

/-- `registerTelemetrySink` (telemetry.ts lines 33–35): `sink = fn` —
overwrites the single module-level slot unconditionally. -/
def registerTelemetrySink (fn : Sink) (_sink : Option Sink) : Option Sink :=
  some fn

/-- `emitEvent` (telemetry.ts lines 54–62): `if (!sink) return;` then
`try { sink(event) } catch { }` — the slot is only read, the event is passed
to the registered sink if any, and a throwing sink is swallowed. -/
def emitEvent (event : XSLeakEvent) (sink : Option Sink) : EmitResult :=
  match sink with
  | none => ⟨sink, [], Except.ok ()⟩
  | some s =>
    match s event with
    | Except.ok u => ⟨sink, [(event, Except.ok u)], Except.ok ()⟩
    | Except.error err => ⟨sink, [(event, Except.error err)], Except.ok ()⟩

/-! ## Detection facade (`packages/core/src/leaks.ts`) -/

/-- Observable outcome of one `extractSTTFDirectives` call: the returned
boolean (or an escaping exception), the events handed to the telemetry bus,
and the sink invocations those emissions caused. -/
structure DetectResult where
  result : Except String Bool
  emitted : List XSLeakEvent
  sinkCalls : List (XSLeakEvent × Except String Unit)
deriving Nonempty

/-- `extractSTTFDirectives` (leaks.ts lines 52–69): parse; on `null` return
`false`; otherwise build the `XS_LEAK`/`INFO`/`STTF` event with
`detail = fragments.join(";")` and the caller's optional `path`, emit it once
via `emitEvent`, and return `true`.  `now` stands for `Date.now()`. -/
def extractSTTFDirectives (url : String) (path : Option String) (now : Nat)
    (sink : Option Sink) : DetectResult :=
  match parseSTTFFromURL url with
  | none => ⟨Except.ok false, [], []⟩
  | some fragments =>
    let ev : XSLeakEvent :=
      ⟨"XS_LEAK", "INFO", "STTF", path, some (String.intercalate ";" fragments), now⟩
    let r := emitEvent ev sink
    ⟨(match r.result with
      | Except.ok _ => Except.ok true
      | Except.error e => Except.error e),
     [ev], r.calls⟩

/-! ## React configuration layer (`packages/react/src/useAegis.ts`) -/

/-- `AegisMode` — the protection mode presets. -/
inductive AegisMode where
  | strict
  | balanced
  | permissive
deriving DecidableEq, Repr

/-- `STTFConfig` — every option is optional (TypeScript `?` fields). -/
structure STTFConfig where
  enabled : Option Bool
  showHighlight : Option Bool
  enableCopyUI : Option Bool
  highlightColor : Option String
  noiseBudgetMs : Option Nat
deriving DecidableEq, Repr

/-- `MODE_PRESETS` (useAegis.ts lines 136–157), field for field. -/
def MODE_PRESETS : AegisMode → STTFConfig
  | AegisMode.strict => ⟨some true, some true, some true, some "#fef08a", some 500⟩
  | AegisMode.balanced => ⟨some true, some true, some true, some "#fef08a", some 300⟩
  | AegisMode.permissive => ⟨some true, some false, some false, none, some 0⟩

/-- The configuration resolution of `useAegis` (useAegis.ts lines 250–259):
`mode = 'balanced'` when absent, and
`sttfConfig = customSTTF || MODE_PRESETS[mode]` — a supplied fine-grained
config is used whole and the preset ignored, otherwise the preset is used
whole. -/
def resolveSTTFConfig (mode : Option AegisMode) (customSTTF : Option STTFConfig) :
    STTFConfig :=
  match customSTTF with
  | some c => c
  | none => MODE_PRESETS (mode.getD AegisMode.balanced)

/-- The option record of `useSTTFProtection` after its destructuring
defaults (sttf.ts lines 43–50). -/
structure ProtOptions where
  enabled : Bool
  showHighlight : Bool
  enableCopyUI : Bool
  highlightColor : String
  noiseBudgetMs : Nat
deriving DecidableEq, Repr

/-- `useAegis` passes the resolved config's fields to `useSTTFProtection`
(useAegis.ts lines 294–299), whose destructuring applies the defaults
`enabled = true`, `showHighlight = true`, `enableCopyUI = true`,
`highlightColor = '#fef08a'`, `noiseBudgetMs = 300` (sttf.ts lines 43–50). -/
def resolveOptions (c : STTFConfig) : ProtOptions :=
  ⟨c.enabled.getD true, c.showHighlight.getD true, c.enableCopyUI.getD true,
   c.highlightColor.getD "#fef08a", c.noiseBudgetMs.getD 300⟩

/-! ## DOM model for the mitigation controller
(`packages/react/src/protection/sttf.ts`) -/

/-- A DOM subtree: text nodes, and elements carrying their tag name (as
`tagName` returns it) and their computed `display` and `visibility` values
(as `getComputedStyle` returns them for that element). -/
inductive DomNode where
  | textNode (content : String)
  | element (tag : String) (display : String) (visibility : String)
      (children : List DomNode)

/-- A text node as seen by the TreeWalker: its direct parent element's tag
and computed style, and its `textContent`. -/
structure TextNodeView where
  parentTag : String
  parentDisplay : String
  parentVisibility : String
  content : String
deriving DecidableEq, Repr

mutual
/-- In-order (document-order) collection of the text nodes of a subtree,
each paired with its direct parent element's data — the visit order of
`createTreeWalker(body, NodeFilter.SHOW_TEXT, …)`. -/
def domTextNodes (tag display visibility : String) : DomNode → List TextNodeView
  | DomNode.textNode c => [⟨tag, display, visibility, c⟩]
  | DomNode.element t d v cs => domTextNodesList t d v cs
/-- Document-order text nodes of a forest. -/
def domTextNodesList (tag display visibility : String) :
    List DomNode → List TextNodeView
  | [] => []
  | n :: ns =>
    domTextNodes tag display visibility n ++ domTextNodesList tag display visibility ns
end

/-- The `acceptNode` filter of `findTextInDocument` (sttf.ts lines 128–143):
reject a text node whose parent's lowercased tag is `script`, `style` or
`noscript`, or whose parent's computed `display` is `none` or `visibility`
is `hidden`. -/
def acceptTextNode (n : TextNodeView) : Bool :=
  let tag := String.mk (asciiLower n.parentTag.data)
  ¬ (tag = "script" || tag = "style" || tag = "noscript" ||
     n.parentDisplay = "none" || n.parentVisibility = "hidden")

/-- The JS whitespace stripped by `String.prototype.trim` (ASCII part). -/
def isJsSpace (c : Char) : Bool :=
  c = ' ' || c = '\t' || c = '\n' || c = '\r' ||
  c.toNat = 0x0B || c.toNat = 0x0C || c.toNat = 0xA0

/-- `String.prototype.trim` model. -/
def jsTrim (l : List Char) : List Char :=
  ((l.dropWhile isJsSpace).reverse.dropWhile isJsSpace).reverse

/-- A match found by `findTextInDocument`: the index (in walker order) of
the accepted text node, the character offset of the match, and the length
reported by the code (`searchText.length`). -/
structure TextMatch where
  nodeIndex : Nat
  offset : Nat
  length : Nat
deriving DecidableEq, Repr

/-- The walker loop of `findTextInDocument` (sttf.ts lines 147–158):
`normalized = searchText.toLowerCase().trim()`, then the first accepted text
node whose lowercased `textContent` contains `normalized`, with
`indexOf`-offset and `searchText.length`. -/
def findTextLoop (searchText : String) (nodes : List TextNodeView) (i : Nat) :
    Option TextMatch :=
  match nodes with
  | [] => none
  | n :: rest =>
    let text := String.mk (asciiLower n.content.data)
    let normalized := String.mk (jsTrim (asciiLower searchText.data))
    let index := jsIndexOf text normalized
    if index ≠ -1 then some ⟨i, index.toNat, searchText.data.length⟩
    else findTextLoop searchText rest (i + 1)

/-- `findTextInDocument` (sttf.ts lines 122–161) over a `body` subtree:
walk the text nodes in document order, keep those the filter accepts, and
return the first case-insensitive match of the search text. -/
def findTextInDocument (searchText : String) (body : DomNode) : Option TextMatch :=
  findTextLoop searchText
    ((domTextNodes "body" "block" "visible" body).filter acceptTextNode) 0

/-! ## Dynamic (JavaScript) values for the controller's step 5 -/

/-- The JavaScript values flowing through `execute` step 5: the parser's
result is an array of strings, while `findTextInDocument` expects a string. -/
inductive JSValue where
  | str (s : String)
  | arr (elems : List String)
deriving DecidableEq, Repr

/-- Model of `String.prototype.split` with a single-character separator
(the code only splits on `','`). -/
def jsStrSplit (s : String) (sep : Char) : List String :=
  (splitOnChar sep s.data).map String.mk

/-- A `.split(sep)` method call on a dynamic value: defined on strings;
on an array there is no such method, so the call throws
(`fragments.split is not a function`). -/
def jsSplit (v : JSValue) (sep : Char) : Except String JSValue :=
  match v with
  | JSValue.str s => Except.ok (JSValue.arr (jsStrSplit s sep))
  | JSValue.arr _ => Except.error "TypeError: fragments.split is not a function"

/-- `findTextInDocument` applied to a dynamic argument: its first operation
is `searchText.toLowerCase()`, which throws on a non-string. -/
def findTextInDocumentJS (searchText : JSValue) (body : DomNode) :
    Except String (Option TextMatch) :=
  match searchText with
  | JSValue.str s => Except.ok (findTextInDocument s body)
  | JSValue.arr _ => Except.error "TypeError: searchText.toLowerCase is not a function"

/-! ## The mitigation controller's `execute` (sttf.ts lines 263–304) -/

/-- The observable steps of one run of the controller, in execution order.
`jsError` is an exception escaping the `async` body (the promise rejects
and nothing further runs). -/
inductive ProtStep where
  | forceScrollTop
  | notifyDetected (fragments : List String)
  | noisePhase (budgetMs : Nat)
  | applyHighlightStep (m : TextMatch)
  | scrollIntoViewStep
  | showCopyUIStep
  | jsError (msg : String)
deriving DecidableEq, Repr

/-- The `execute` body (sttf.ts lines 267–302), as the ordered trace of its
steps: scroll to top; parse `window.location.href`; when absent, run the
noise phase and return; when present, invoke `onDetected(fragments)`, run
the noise phase, then evaluate `fragments.split(',')` and search; on a found
match with `showHighlight`, highlight, smooth-scroll to it, and optionally
attach the copy UI. -/
def executeTrace (o : ProtOptions) (href : String) (body : DomNode) :
    List ProtStep :=
  match parseSTTFFromURL href with
  | none => [ProtStep.forceScrollTop, ProtStep.noisePhase o.noiseBudgetMs]
  | some fragments =>
    [ProtStep.forceScrollTop, ProtStep.notifyDetected fragments,
     ProtStep.noisePhase o.noiseBudgetMs] ++
    (match jsSplit (JSValue.arr fragments) ',' with
     | Except.error msg => [ProtStep.jsError msg]
     | Except.ok searchText =>
       match findTextInDocumentJS searchText body with
       | Except.error msg => [ProtStep.jsError msg]
       | Except.ok none => []
       | Except.ok (some m) =>
         if o.showHighlight then
           [ProtStep.applyHighlightStep m, ProtStep.scrollIntoViewStep] ++
           (if o.enableCopyUI then [ProtStep.showCopyUIStep] else [])
         else [])

/-- The effect body of `useSTTFProtection` (sttf.ts lines 263–265): nothing
runs when `enabled` is false or the one-shot guard has fired. -/
def runSTTFProtection (o : ProtOptions) (href : String) (body : DomNode)
    (hasExecuted : Bool) : List ProtStep :=
  if ¬ o.enabled || hasExecuted then [] else executeTrace o href body

/-- The reveal steps of the claim's ordering invariant: highlight
application and scroll-into-view. -/
def isRevealStep : ProtStep → Bool
  | ProtStep.applyHighlightStep _ => true
  | ProtStep.scrollIntoViewStep => true
  | _ => false

/-- A sample rendered document used by the controller witnesses: one visible
text node containing the word `secret`. -/
def sampleBody : DomNode :=
  DomNode.element "main" "block" "visible" [DomNode.textNode "the secret text"]

/-! ## Helper lemmas about the telemetry bus -/

/-- `emitEvent` returns normally whatever the sink does: the `catch` block
swallows a throwing sink and an absent sink is a silent drop. -/
theorem emitEvent_result_ok (event : XSLeakEvent) (sink : Option Sink) :
    (emitEvent event sink).result = Except.ok () := by
  cases sink with
  | none => rfl
  | some s =>
    cases h : s event <;> simp [emitEvent, h]

/-- `emitEvent` only reads the sink slot. -/
theorem emitEvent_sinkAfter (event : XSLeakEvent) (sink : Option Sink) :
    (emitEvent event sink).sinkAfter = sink := by
  cases sink with
  | none => rfl
  | some s =>
    cases h : s event <;> simp [emitEvent, h]

end Aegis

namespace Aegis

/-! ## Claims -/

/-- **C1.** For every URL string in which the parser finds directives, the
detection facade (`extractSTTFDirectives` / `detect`) emits exactly one
`SecurityEvent` whose `kind` is `"XS_LEAK"`, `level` is `INFO`, `vector` is
`"STTF"`, `detail` equals the directives joined with `";"`, and `path` equals
the caller-supplied path argument, and returns `true`; for every URL string in
which the parser finds no directives it emits zero events and returns
`false`. -/
theorem detect_emits_one_event (url : String) (path : Option String) (now : Nat)
    (sink : Option Sink) :
    (∀ ds, parseSTTFFromURL url = some ds →
      (extractSTTFDirectives url path now sink).result = Except.ok true ∧
      (extractSTTFDirectives url path now sink).emitted =
        [⟨"XS_LEAK", "INFO", "STTF", path, some (String.intercalate ";" ds), now⟩]) ∧
    (parseSTTFFromURL url = none →
      (extractSTTFDirectives url path now sink).result = Except.ok false ∧
      (extractSTTFDirectives url path now sink).emitted = []) := by
  constructor
  · intro ds h
    simp [extractSTTFDirectives, h, emitEvent_result_ok]
  · intro h
    simp [extractSTTFDirectives, h]

/-- Witness for C1 at a concrete multi-directive URL. -/
theorem detect_emits_one_event_witness :
    (extractSTTFDirectives "/page#:~:text=one&text=two" (some "/page") 7 none).result =
      Except.ok true ∧
    (extractSTTFDirectives "/page#:~:text=one&text=two" (some "/page") 7 none).emitted =
      [⟨"XS_LEAK", "INFO", "STTF", some "/page", some "one;two", 7⟩] :=
  (detect_emits_one_event "/page#:~:text=one&text=two" (some "/page") 7 none).1
    ["one", "two"] (by decide)

/-- **C2.** For every input string that is a malformed/unparseable URL, or has
no fragment, or has a fragment not beginning with the `:~:` sigil, or has the
sigil but zero `text` keys, `parseSTTFFromURL` returns the absence marker
(`none`) without raising; consequently `parseSTTFFromURL` never returns an
empty sequence. -/
theorem parse_absent (url : String) :
    (∀ e, jsNewURLHash url = Except.error e → parseSTTFFromURL url = none) ∧
    (∀ h, jsNewURLHash url = Except.ok h →
      startsWithList "#:~:".data h.data = false → parseSTTFFromURL url = none) ∧
    (∀ h, jsNewURLHash url = Except.ok h →
      startsWithList "#:~:".data h.data = true →
      uspGetAll (String.mk (h.data.drop 4)) "text" = [] →
      parseSTTFFromURL url = none) ∧
    (∀ ds, parseSTTFFromURL url = some ds → ds ≠ []) := by
  refine ⟨?_, ?_, ?_, ?_⟩
  · intro e he
    simp [parseSTTFFromURL, parseSTTFBody, he]
  · intro h hok hsw
    simp [parseSTTFFromURL, parseSTTFBody, hok, hsw]
  · intro h hok hsw hempty
    simp [parseSTTFFromURL, parseSTTFBody, hok, hsw, hempty]
  · intro ds hds
    unfold parseSTTFFromURL parseSTTFBody at hds
    cases hu : jsNewURLHash url with
    | error e => rw [hu] at hds; cases hds
    | ok h =>
      rw [hu] at hds
      by_cases hsw : startsWithList "#:~:".data h.data
      · by_cases hlen :
            (uspGetAll (String.mk (h.data.drop 4)) "text").length = 0
        · simp [hsw, hlen] at hds
        · simp [hsw, hlen] at hds
          intro hnil
          rw [hnil] at hds
          simp at hds
          exact hlen (by simp [hds])
      · simp [hsw] at hds

/-- Witness for C2: one input per absence bucket, plus the non-emptiness part
at a directive-bearing input. -/
theorem parse_absent_witness :
    parseSTTFFromURL "http://^/x#:~:text=y" = none ∧
    parseSTTFFromURL "/page#section" = none ∧
    parseSTTFFromURL "/nokeys#:~:foo=bar" = none ∧
    (["a"] : List String) ≠ [] :=
  ⟨(parse_absent "http://^/x#:~:text=y").1 "TypeError: Invalid URL" rfl,
   (parse_absent "/page#section").2.1 "#section" rfl (by decide),
   (parse_absent "/nokeys#:~:foo=bar").2.2.1 "#:~:foo=bar" rfl (by decide) (by decide),
   (parse_absent "/page#:~:text=a").2.2.2 ["a"] (by decide)⟩

/-- **C3.** `parseSTTFFromURL("/page#:~:text=secret")` returns `["secret"]`;
`parseSTTFFromURL("/page#:~:text=start,end")` returns `["start,end"]` (range
sub-syntax passed through as one string); `parseSTTFFromURL
("/page#:~:text=one&text=two")` returns `["one","two"]` preserving occurrence
order; `parseSTTFFromURL("/page#section")`, `parseSTTFFromURL("/page")`, and
`parseSTTFFromURL("not a valid url")` each return the absence marker. -/
theorem parse_examples :
    parseSTTFFromURL "/page#:~:text=secret" = some ["secret"] ∧
    parseSTTFFromURL "/page#:~:text=start,end" = some ["start,end"] ∧
    parseSTTFFromURL "/page#:~:text=one&text=two" = some ["one", "two"] ∧
    parseSTTFFromURL "/page#section" = none ∧
    parseSTTFFromURL "/page" = none ∧
    parseSTTFFromURL "not a valid url" = none := by
  refine ⟨?_, ?_, ?_, ?_, ?_, ?_⟩ <;> decide

/-- **C4, counterexample.** The claim says each collected `text` value is
percent-decoded exactly once; decoding `"/page#:~:text=hello%2520world"`
exactly once would give `["hello%20world"]`, but `parseSTTFFromURL` gives
`["hello world"]`: `URLSearchParams` already percent-decodes every value
(`%2520` ↦ `%20`) and `decodeURIComponent` then decodes the result again. -/
theorem parse_decode_once_cex :
    parseSTTFFromURL "/page#:~:text=hello%2520world" = some ["hello world"] ∧
    (["hello world"] : List String) ≠ ["hello%20world"] :=
  ⟨by decide, by decide⟩

/-- **C4, amended.** Each collected `text` value is the query-string-decoded
(`URLSearchParams`) value with `decodeURIComponent` applied on top — so
percent-encodings can be decoded twice; `"/page#:~:text=hello%20world"`
returns `["hello world"]`; when the second decoding hits a malformed
percent-sequence the query-string-decoded value is kept, without raising and
without affecting the decoding of the other values (the result is a pointwise
map over the collected values). -/
theorem parse_decode_layers (url : String) :
    (∀ h, jsNewURLHash url = Except.ok h →
      startsWithList "#:~:".data h.data = true →
      uspGetAll (String.mk (h.data.drop 4)) "text" ≠ [] →
      parseSTTFFromURL url =
        some ((uspGetAll (String.mk (h.data.drop 4)) "text").map (fun value =>
          match decodeURIComponentE value with
          | Except.ok d => d
          | Except.error _ => value))) ∧
    parseSTTFFromURL "/page#:~:text=hello%20world" = some ["hello world"] ∧
    parseSTTFFromURL "/page#:~:text=100%ZZoff" = some ["100%ZZoff"] ∧
    parseSTTFFromURL "/page#:~:text=100%ZZ&text=a%20b" = some ["100%ZZ", "a b"] := by
  refine ⟨?_, by decide, by decide, by decide⟩
  intro h hok hsw hne
  have hlen : ¬ (uspGetAll (String.mk (h.data.drop 4)) "text").length = 0 := by
    simpa using hne
  simp [parseSTTFFromURL, parseSTTFBody, hok, hsw, hlen]

/-- Witness for C4's amended universal part at a concrete URL. -/
theorem parse_decode_layers_witness :
    parseSTTFFromURL "/page#:~:text=a" =
      some ((uspGetAll (String.mk ("#:~:text=a".data.drop 4)) "text").map (fun value =>
        match decodeURIComponentE value with
        | Except.ok d => d
        | Except.error _ => value)) :=
  (parse_decode_layers "/page#:~:text=a").1 "#:~:text=a" rfl (by decide) (by decide)

/-- **C5.** For every registered sink, including one that throws on
invocation, and for every event, `emitEvent` returns normally without
propagating any exception; the detection facade never raises regardless of
sink behavior and regardless of URL input; when no sink is registered,
`emitEvent` drops the event silently (zero sink invocations) and returns
normally. -/
theorem emit_and_detect_never_throw (event : XSLeakEvent) (sink : Option Sink)
    (url : String) (path : Option String) (now : Nat) :
    (emitEvent event sink).result = Except.ok () ∧
    (emitEvent event none).calls = [] ∧
    (emitEvent event none).result = Except.ok () ∧
    (extractSTTFDirectives url path now sink).result =
      Except.ok (parseSTTFFromURL url).isSome := by
  refine ⟨emitEvent_result_ok event sink, rfl, rfl, ?_⟩
  cases hp : parseSTTFFromURL url with
  | none => simp [extractSTTFDirectives, hp]
  | some fragments => simp [extractSTTFDirectives, hp, emitEvent_result_ok]

/-- **C6.** For every pair of sinks A then B registered in sequence via
`registerTelemetrySink`, exactly one sink is active afterwards (the latest,
B), and a subsequent `emitEvent` invokes only B and never A; `emitEvent`
never modifies the sink slot (only `registerTelemetrySink` writes it). -/
theorem register_last_writer_wins (A B : Sink) (st : Option Sink)
    (e : XSLeakEvent) :
    registerTelemetrySink B (registerTelemetrySink A st) = some B ∧
    (emitEvent e (registerTelemetrySink B (registerTelemetrySink A st))).calls =
      [(e, B e)] ∧
    (emitEvent e st).sinkAfter = st := by
  refine ⟨rfl, ?_, emitEvent_sinkAfter e st⟩
  cases h : B e <;> simp [registerTelemetrySink, emitEvent, h]

/-- **C7.** In the mitigation controller's execution for a page-view, the
noise phase (eager-loading lazy resources bounded by `noiseBudgetMs`) is
entered unconditionally in both the directives-present and directives-absent
branches, and highlight application and scroll-into-view never occur before
the noise phase completes. -/
theorem noise_phase_unconditional (o : ProtOptions) (href : String)
    (body : DomNode) (h : o.enabled = true) :
    ∃ pre post,
      runSTTFProtection o href body false =
        pre ++ ProtStep.noisePhase o.noiseBudgetMs :: post ∧
      ∀ s ∈ pre, isRevealStep s = false := by
  unfold runSTTFProtection executeTrace
  rw [h]
  simp only [Bool.not_true, Bool.false_or, if_false]
  cases hp : parseSTTFFromURL href with
  | none =>
    simp only [hp]
    refine ⟨[ProtStep.forceScrollTop], [], rfl, ?_⟩
    intro s hs
    simp at hs
    subst hs
    rfl
  | some fragments =>
    simp only [hp]
    refine ⟨[ProtStep.forceScrollTop, ProtStep.notifyDetected fragments],
      [ProtStep.jsError "TypeError: fragments.split is not a function"], rfl, ?_⟩
    intro s hs
    simp at hs
    rcases hs with hs | hs <;> subst hs <;> rfl

/-- Witness for C7 on a concrete directive-bearing page view. -/
theorem noise_phase_unconditional_witness :
    ∃ pre post,
      runSTTFProtection ⟨true, true, true, "#fef08a", 300⟩ "/page#:~:text=secret"
        sampleBody false = pre ++ ProtStep.noisePhase 300 :: post ∧
      ∀ s ∈ pre, isRevealStep s = false :=
  noise_phase_unconditional ⟨true, true, true, "#fef08a", 300⟩ "/page#:~:text=secret"
    sampleBody rfl

/-- **C8.** The claim says that with directives present the controller
invokes the detection callback and then searches the document for the first
directive's text, highlighting a found match.  The code instead evaluates
`fragments.split(',')` on the directive *array* (`string[]`), which has no
`split` method: the run notifies and completes the noise phase, then throws a
`TypeError`, so no search, highlight or scroll ever happens — even though
`findTextInDocument` would have found the text (case-insensitively) had it
been called with the first directive. -/
theorem search_never_runs_typeerror :
    runSTTFProtection ⟨true, true, true, "#fef08a", 300⟩ "/page#:~:text=secret"
      sampleBody false =
      [ProtStep.forceScrollTop, ProtStep.notifyDetected ["secret"],
       ProtStep.noisePhase 300,
       ProtStep.jsError "TypeError: fragments.split is not a function"] ∧
    findTextInDocument "secret" sampleBody = some ⟨0, 4, 6⟩ ∧
    findTextInDocument "SECRET" sampleBody = some ⟨0, 4, 6⟩ ∧
    (runSTTFProtection ⟨true, true, true, "#fef08a", 300⟩ "/page#:~:text=secret"
      sampleBody false).all (fun s => isRevealStep s = false) := by
  refine ⟨by decide, by decide, by decide, by decide⟩

/-- **C9.** The mitigation configuration presets resolve exactly to the
spec's table: mode `strict` yields `noiseBudgetMs` 500 with highlight and
copy UI enabled; mode `balanced` (the default when no mode is given) yields
`noiseBudgetMs` 300 with highlight and copy UI enabled; mode `permissive`
yields `noiseBudgetMs` 0 with highlight and copy UI disabled; and preset
modes are mutually exclusive with fine-grained per-option overrides: the
resolved configuration is either the caller's fine-grained config unchanged
or a preset unchanged, never a mixture. -/
theorem mode_presets_spec :
    (∀ m c, resolveSTTFConfig m (some c) = c) ∧
    (∀ m, resolveSTTFConfig m none = MODE_PRESETS (m.getD AegisMode.balanced)) ∧
    resolveOptions (resolveSTTFConfig (some AegisMode.strict) none) =
      ⟨true, true, true, "#fef08a", 500⟩ ∧
    resolveOptions (resolveSTTFConfig none none) =
      ⟨true, true, true, "#fef08a", 300⟩ ∧
    resolveOptions (resolveSTTFConfig (some AegisMode.balanced) none) =
      ⟨true, true, true, "#fef08a", 300⟩ ∧
    resolveOptions (resolveSTTFConfig (some AegisMode.permissive) none) =
      ⟨true, false, false, "#fef08a", 0⟩ := by
  refine ⟨fun m c => rfl, fun m => rfl, by decide, by decide, by decide, by decide⟩

/-- **C10.** For the input `"/page#:~:text="` (STTF sigil with a single
`text` key whose value is empty), `parseSTTFFromURL` returns the one-element
sequence `[""]` rather than the absence marker, and consequently the
detection facade returns `true` and emits an event whose `detail` is the
empty string — the code treats an empty-string `text` value as STTF-present,
not filtering it out. -/
theorem empty_text_value_is_present :
    parseSTTFFromURL "/page#:~:text=" = some [""] ∧
    (extractSTTFDirectives "/page#:~:text=" none 0 none).result = Except.ok true ∧
    (extractSTTFDirectives "/page#:~:text=" none 0 none).emitted =
      [⟨"XS_LEAK", "INFO", "STTF", none, some "", 0⟩] :=
  ⟨by decide, rfl, by decide⟩

end Aegis
